import Mathlib

/-!
Verification development for the openplace crawler.

This file gives a shallow embedding, in Lean 4, of the parts of the
openplace code base that the specification talks about:

* `tasks/store/writers.py` — the local archive naming convention
  (`local_archive_name`, `parse_archive_name`);
* `tasks/scrape/navigate.py` — the pagination state machine
  (`PlacePostingIterator`: `__init__`, `from_storage`, `__next__`,
  `_deduplicate_links`, `iter_n_batches`);
* `tasks/scrape/fetch.py` — the per-kind file acquisition procedures
  (`fetch_reglement_file`, `fetch_complement_file`, `fetch_avis_file`,
  `fetch_dce_file`);
* `tasks/scrape/parse.py` — the posting page parser
  (`extract_field`, `parse_posting_info`);
* `workflows/files.py` with `storage/local/queries.py` — the bulk
  retrieval orchestration (`download_pending_files`,
  `update_posting_fetching_status`).

HTTP traffic and HTML parsing are abstracted as deterministic backends:
a response is modelled by the observations the embedded code makes of it
(status code, extracted links, extracted PRADO_PAGESTATE token, headers).
Everything else is translated statement by statement from the Python
source; comments on each definition point to the file it embeds.
-/

namespace OpenPlace

/-- Enum `FetchingStatus` from `storage/local/models.py`. -/
inductive FetchingStatus
  | pending
  | success
  | failure
deriving DecidableEq

/-! ### Archive naming (`tasks/store/writers.py`)

`local_archive_name(posting_id, filename, file_type)` returns
`f'{posting_id}.{Path(filename).stem}.{file_type}.zip'` and
`parse_archive_name` decodes it with the regex
`^(\d+)\.(.*)\.(.*)\.zip$` (groups are greedy) and `int()` on the first
group.  We model Python strings as `String`/`List Char`, `Path(...).stem`
by `posixStem` below, and compile the regex by hand. -/

/-- Part of `pathlib.PurePosixPath(s).name`: drop trailing `'/'`
characters (pathlib normalisation drops trailing slashes). -/
def stripTrailingSlashes (cs : List Char) : List Char :=
  (cs.reverse.dropWhile (· = '/')).reverse

/-- `pathlib.PurePosixPath(s).name`: the final path component, i.e. what
follows the last `'/'` once trailing slashes are dropped.  The pseudo
components `'.'` and `'..'` are not special-cased here; no input we
reason about contains a dot. -/
def posixName (cs : List Char) : List Char :=
  ((stripTrailingSlashes cs).reverse.takeWhile (· ≠ '/')).reverse

/-- Index of the last `'.'` of `nm` (Python `name.rfind('.')`), if any:
the characters after the last dot are the longest dot-free suffix, so
the dot sits just before them — and there is no dot at all exactly when
that suffix is the whole string. -/
def lastDotIdx (nm : List Char) : Option Nat :=
  let tailLen := (nm.reverse.takeWhile (· ≠ '.')).length
  if tailLen = nm.length then none else some (nm.length - 1 - tailLen)

/-- `pathlib.PurePosixPath(s).stem`: the final component without its
suffix.  CPython keeps the name whole unless the last `'.'` sits at an
index `i` with `0 < i < len(name) - 1`. -/
def posixStem (cs : List Char) : List Char :=
  let nm := posixName cs
  match lastDotIdx nm with
  | none => nm
  | some i => if 0 < i ∧ i < nm.length - 1 then nm.take i else nm

/-- Function `local_archive_name` of `tasks/store/writers.py`:
`f'{posting_id}.{Path(filename).stem}.{file_type}.zip'`. -/
def localArchiveName (postingId filename fileType : String) : String :=
  postingId ++ "." ++ (posixStem filename.toList).asString ++ "." ++ fileType ++ ".zip"

/-- Python `int()` on a digit string, as a fold (the first regex group
only ever holds decimal digits). -/
def digitsToNat (ds : List Char) : Nat :=
  ds.foldl (fun acc c => acc * 10 + (c.toNat - '0'.toNat)) 0

/-- Split `cs` at its last `'.'`, if it has one. -/
def splitAtLastDot (cs : List Char) : Option (List Char × List Char) :=
  let rev := cs.reverse
  let g3rev := rev.takeWhile (· ≠ '.')
  match rev.drop g3rev.length with
  | '.' :: g2rev => some (g2rev.reverse, g3rev.reverse)
  | _ => none

/-- Core of `parse_archive_name`, compiled by hand from the regex
`re.match(r'^(\d+)\.(.*)\.(.*)\.zip$', archive_name)`:

* greedy `(\d+)` followed by the literal `\.` forces group 1 to be the
  maximal leading digit run (a shorter run would leave a digit where the
  dot is required);
* `\.zip$` is anchored, so it consumes exactly the last four characters;
* the greedy first `(.*)` makes group 2 everything before the last `'.'`
  of what remains, group 3 everything after it.

Returns `(int(group1), group2, group3)` like the Python function (which
raises `ValueError`, here `none`, when the regex does not match). -/
def parseArchiveNameL (cs : List Char) : Option (Nat × List Char × List Char) :=
  let digits := cs.takeWhile Char.isDigit
  if digits = [] then none
  else
    match cs.drop digits.length with
    | '.' :: rest =>
      if rest.reverse.take 4 = ['p', 'i', 'z', '.'] then
        match splitAtLastDot ((rest.reverse.drop 4).reverse) with
        | some (g2, g3) => some (digitsToNat digits, g2, g3)
        | none => none
      else none
    | _ => none

/-- Function `parse_archive_name` of `tasks/store/writers.py` on
`String`s. -/
def parseArchiveName (archiveName : String) : Option (Nat × String × String) :=
  match parseArchiveNameL archiveName.toList with
  | some (pid, g2, g3) => some (pid, g2.asString, g3.asString)
  | none => none

/-! ### Pagination state machine (`tasks/scrape/navigate.py`)

`PlacePostingIterator` talks to the portal through `requests` and parses
each response with `extract_links_from_anchor_tags` (anchors matching
`LINK_REGEX`) and `re.search(PAGE_STATE_REGEX, ...)`.  A response is
modelled by those observations; a deterministic backend supplies the
response of each of the three request sites. -/

/-- An HTTP search response as `PlacePostingIterator` observes it:
status code, the posting links `extract_links_from_anchor_tags` extracts
from the body, the PRADO_PAGESTATE token `re.search(PAGE_STATE_REGEX)`
finds in the body (if any), and the `Set-Cookie` header (if any). -/
structure SearchResponse where
  statusCode : Nat
  links : List String
  pageState : Option String
  setCookie : Option String
deriving DecidableEq

/-- Deterministic search backend: one response per request site.
`initResponse` answers the `GET URL_SEARCH` of `_initialize_state`;
`pageSizeResponse page_state cookie num_results` answers the page-size
POST of `_increment_state`; `nextPageResponse page_state cookie` answers
the pagination POST inside `__next__`. -/
structure SearchBackend where
  initResponse : SearchResponse
  pageSizeResponse : String → String → Nat → SearchResponse
  nextPageResponse : String → String → SearchResponse

/-- Mutable attributes of a `PlacePostingIterator` after `__init__` has
run (`self.links`, `self.page_state`, `self.cookie`,
`self.previous_links`, `self._exhausted`, `self._seen_links`,
`self._batch_index`, `self._num_new_links`, `self._num_iterations`).
The seen set is a list used only through membership. -/
structure IterState where
  links : List String
  pageState : String
  cookie : String
  previousLinks : Option (List String)
  exhausted : Bool
  seenLinks : List String
  batchIndex : Nat
  numNewLinks : Nat
  numIterations : Nat
deriving DecidableEq

/-- Method `_deduplicate_links`: keep the links not in the seen set
(`[link for link in links if link not in ...]`). -/
def deduplicateLinks (seenLinks : List String) (links : List String) : List String :=
  links.filter (fun link => !(seenLinks.contains link))

/-- Ways `__init__` can raise: the `assert response.status_code == 200`
(AssertionError), the missing-PRADO_PAGESTATE `RuntimeError`, and the
`KeyError` of `response.headers['Set-Cookie']`. -/
inductive InitError
  | badStatus (code : Nat)
  | noPageState
  | noCookie
deriving DecidableEq

/-- Method `_initialize_state`: GET the search page, assert status 200,
extract the token, read the `Set-Cookie` header. -/
def initializeState (b : SearchBackend) : Except InitError (SearchResponse × String × String) :=
  let response := b.initResponse
  if response.statusCode = 200 then
    match response.pageState with
    | none => .error .noPageState
    | some pageState =>
      match response.setCookie with
      | none => .error .noCookie
      | some cookie => .ok (response, pageState, cookie)
  else .error (.badStatus response.statusCode)

/-- Method `_increment_state`: POST the page-size form replaying token
and cookie, assert status 200, extract the new token; the cookie is
returned unchanged. -/
def incrementState (b : SearchBackend) (pageState cookie : String) (numResults : Nat) :
    Except InitError (SearchResponse × String × String) :=
  let response := b.pageSizeResponse pageState cookie numResults
  if response.statusCode = 200 then
    match response.pageState with
    | none => .error .noPageState
    | some newPageState => .ok (response, newPageState, cookie)
  else .error (.badStatus response.statusCode)

/-- Method `__init__` of `PlacePostingIterator`.  The Python body has no
early return: even when `links` is given (resume mode), after the
`if links is not None:` block it still runs `_initialize_state` (the
GET) and `_increment_state` (the page-size POST), and then reassigns
`self.links`, `self.page_state`, `self.cookie`, `self.previous_links`,
`self._exhausted` and `self._seen_links`.  Of the fields the branch set,
only `_seen_links` is still observable below — `_deduplicate_links`
reads it through `getattr(self, '_seen_links', set())`, which also
yields the empty set when `links` was `None` and the attribute does not
exist yet — and it is overwritten with `set(self.links)` afterwards. -/
def initIterator (b : SearchBackend) (links? : Option (List String)) :
    Except InitError IterState :=
  let seenAttr : List String := match links? with
    | some links => links
    | none => []
  match initializeState b with
  | .error e => .error e
  | .ok (_, pageState, cookie) =>
    match incrementState b pageState cookie 20 with
    | .error e => .error e
    | .ok (response, newPageState, cookie) =>
      let links := response.links
      let deduped := deduplicateLinks seenAttr links
      .ok { links := deduped
            pageState := newPageState
            cookie := cookie
            previousLinks := none
            exhausted := false
            seenLinks := deduped
            batchIndex := 0
            numNewLinks := 0
            numIterations := 0 }

/-- Classmethod `from_storage`: read the stored postings and call
`cls(links=[link.url for link in stored_links])`.  The parameter
`storedUrls` stands for the URLs `list_postings` returns. -/
def fromStorage (b : SearchBackend) (storedUrls : List String) : Except InitError IterState :=
  initIterator b (some storedUrls)

/-- Result of one `__next__` call: `StopIteration`, an `AssertionError`
on a status code outside {200, 500}, or a batch of deduplicated links. -/
inductive StepResult
  | stop
  | fail (code : Nat)
  | batch (links : List String)
deriving DecidableEq

/-- Method `__next__`, statement by statement.  Checks, in order:
already exhausted; first call (`previous_links is None`) returns the
initial links; POST the next-page form; status 500 ends the sequence;
`assert status == 200`; extract links; missing token ends; token equal
to the current one ends; raw links equal to the previous raw list ends;
empty deduplicated batch ends; otherwise commit the new state and return
the deduplicated batch. -/
def nextBatch (b : SearchBackend) (st : IterState) : StepResult × IterState :=
  if st.exhausted then (.stop, st)
  else
    match st.previousLinks with
    | none => (.batch st.links, { st with previousLinks := some st.links })
    | some prevLinks =>
      let response := b.nextPageResponse st.pageState st.cookie
      if response.statusCode = 500 then (.stop, { st with exhausted := true })
      else if response.statusCode ≠ 200 then (.fail response.statusCode, st)
      else
        let links := response.links
        match response.pageState with
        | none => (.stop, { st with exhausted := true })
        | some newPageState =>
          if st.pageState = newPageState then (.stop, { st with exhausted := true })
          else if prevLinks = links then (.stop, { st with exhausted := true })
          else
            let dedupedLinks := deduplicateLinks st.seenLinks links
            if dedupedLinks = [] then (.stop, { st with exhausted := true })
            else
              (.batch dedupedLinks,
               { st with links := dedupedLinks
                         pageState := newPageState
                         previousLinks := some links
                         seenLinks := st.seenLinks ++ dedupedLinks
                         batchIndex := st.batchIndex + 1
                         numNewLinks := st.numNewLinks + dedupedLinks.length
                         numIterations := st.numIterations + 1 })

/-- Batches produced by iterating the object (`for batch in self`) for
at most `n` calls to `__next__`; iteration ends at the first call that
does not produce a batch (StopIteration ends the for loop, an
AssertionError propagates — either way no further batch appears). -/
def stepsFrom (b : SearchBackend) : Nat → IterState → List (List String)
  | 0, _ => []
  | n + 1, st =>
    match nextBatch b st with
    | (.batch links, st') => links :: stepsFrom b n st'
    | (_, _) => []

/-- Control point of the `ensure_n_new_links` loop of `iter_n_batches`:
about to test `self._num_new_links < ensure_n_new_links`, or inside
`for batch in self`. -/
inductive EnsurePhase
  | whileCheck
  | forLoop
deriving DecidableEq

/-- How the `ensure_n_new_links` mode of `iter_n_batches` can exit: the
while condition turns false and the generator returns its yielded
batches, or an AssertionError escapes from `__next__`. -/
inductive EnsureExit
  | finished (batches : List (List String))
  | raised (code : Nat)
deriving DecidableEq

/-- Fuel-indexed execution of the `ensure_n_new_links is not None`
branch of `iter_n_batches`:

    while self._num_new_links < ensure_n_new_links:
        for batch in self:
            yield batch

Each constructor step of the Python loop costs one unit of fuel;
`none` means the loop had not exited after `fuel` steps, so
`(∃ fuel exit, ensureLoop ... fuel ... = some exit)` says the call
terminates.  `out` accumulates the yielded batches in reverse. -/
def ensureLoop (b : SearchBackend) (ensureNNewLinks : Nat) :
    Nat → EnsurePhase → IterState → List (List String) → Option EnsureExit
  | 0, _, _, _ => none
  | fuel + 1, .whileCheck, st, out =>
    if st.numNewLinks < ensureNNewLinks then ensureLoop b ensureNNewLinks fuel .forLoop st out
    else some (.finished out.reverse)
  | fuel + 1, .forLoop, st, out =>
    match nextBatch b st with
    | (.batch links, st') => ensureLoop b ensureNNewLinks fuel .forLoop st' (links :: out)
    | (.stop, st') => ensureLoop b ensureNNewLinks fuel .whileCheck st' out
    | (.fail code, _) => some (.raised code)

/-! ### File acquisition (`tasks/scrape/fetch.py`)

The single-step fetchers GET one URL and read the response's
`Content-Disposition` header against a kind-specific pattern; the DCE
fetcher walks a three-step token/cookie flow.  A response is modelled by
the observations made of it; the `file_writer` callback is modelled by a
pure size oracle plus an explicit log of the write events the call
performs, so "writes no file" is visible in the result. -/

/-- An HTTP response as the file fetchers observe it: status code, the
PRADO_PAGESTATE token `re.search` finds in the body (DCE flow only), and
the `Set-Cookie`, `Content-Type` and `Content-Disposition` headers. -/
structure FileResponse where
  statusCode : Nat
  pageState : Option String
  setCookie : Option String
  contentType : Option String
  contentDisposition : Option String
deriving DecidableEq

/-- One `file_writer(posting_id, filename, kind, response, streaming)`
invocation, recorded as `(posting_id, filename, kind)`.
`fetch_reglement_file` can pass `filename=None`, hence the option. -/
def WriteEvent : Type := String × Option String × String
deriving instance DecidableEq for WriteEvent

/-- Size oracle standing for the `int` a `file_writer` returns. -/
def WriterSize : Type := String → Option String → String → Nat

/-- Ways the fetchers raise: `ValueError`/`AssertionError` on a bad
status, `ValueError` when no filename can be extracted from the
`Content-Disposition` header, `ValueError` on a missing token or
cookie in the DCE flow, and the `KeyError` of
`response.headers['Content-Type']` inside `is_zip_file`. -/
inductive FetchError
  | badStatus (step : Nat) (code : Nat)
  | noFilenameMatch
  | missingPageState (step : Nat)
  | missingCookie
  | missingContentType
deriving DecidableEq

/-- Result of a fetcher: the `(filename, file_size)` pair the Python
function returns plus the log of write events, or the exception. -/
def FetchResult : Type := Except FetchError ((Option String × Option Nat) × List WriteEvent)

/-- Host prefix the single-step fetchers prepend to their relative
link. -/
def urlHost : String := "https://www.marches-publics.gouv.fr"

/-- Hand compilation of
`re.match(r'^attachment; filename="([^"]+)";$', cd)` — used by
`fetch_reglement_file` and `fetch_dce_file`: the header must read
`attachment; filename="<g>";` exactly, with `<g>` nonempty and free of
`'"'` (the greedy `[^"]+` stops at the first quote, then `";` must close
the string). -/
def matchQuotedStrict (cd : String) : Option String :=
  let p := "attachment; filename=".toList ++ ['"']
  let cs := cd.toList
  if cs.take p.length = p then
    let rest := cs.drop p.length
    let g := rest.takeWhile (· ≠ '"')
    if g = [] then none
    else if rest.drop g.length = ['"', ';'] then some g.asString
    else none
  else none

/-- Hand compilation of
`re.match(r'^attachment; filename="([^"]+)"', content_disp)` — used by
`fetch_complement_file`: same quoted shape but nothing is required after
the closing quote (`re.match` only anchors the start). -/
def matchQuotedLoose (cd : String) : Option String :=
  let p := "attachment; filename=".toList ++ ['"']
  let cs := cd.toList
  if cs.take p.length = p then
    let rest := cs.drop p.length
    let g := rest.takeWhile (· ≠ '"')
    if g = [] then none
    else
      match rest.drop g.length with
      | '"' :: _ => some g.asString
      | _ => none
  else none

/-- Hand compilation of
`re.match(r'^attachment; filename=([^;]+);', content_disposition)` —
used by `fetch_avis_file`: unquoted filename up to the first `';'`,
which must be present. -/
def matchUnquoted (cd : String) : Option String :=
  let p := "attachment; filename=".toList
  let cs := cd.toList
  if cs.take p.length = p then
    let rest := cs.drop p.length
    let g := rest.takeWhile (· ≠ ';')
    if g = [] then none
    else
      match rest.drop g.length with
      | ';' :: _ => some g.asString
      | _ => none
  else none

/-- Function `fetch_reglement_file`.  An empty link is a soft miss; a
non-200 status is only logged (no raise, the body continues); a missing
`Content-Disposition` header returns `(None, None)` before any write; a
header that does not match the pattern still reaches `file_writer`,
with `filename=None`. -/
def fetchReglementFile (postingId linkReglement : String) (writerSize : WriterSize)
    (backend : String → FileResponse) : FetchResult :=
  if linkReglement = "" then .ok ((none, none), [])
  else
    let response := backend (urlHost ++ linkReglement)
    match response.contentDisposition with
    | none => .ok ((none, none), [])
    | some cd =>
      let filenameReglement := matchQuotedStrict cd
      let fileSize := writerSize postingId filenameReglement "reglement"
      .ok ((filenameReglement, some fileSize), [(postingId, filenameReglement, "reglement")])

/-- Function `fetch_complement_file`.  An empty link is a soft miss; a
non-200 status raises; the header is read with a default of `''`
(`headers.get('Content-Disposition', '')`), so both a missing header and
a non-matching one raise `ValueError`. -/
def fetchComplementFile (postingId linkComplement : String) (writerSize : WriterSize)
    (backend : String → FileResponse) : FetchResult :=
  if linkComplement = "" then .ok ((none, none), [])
  else
    let response := backend (urlHost ++ linkComplement)
    if response.statusCode ≠ 200 then .error (.badStatus 0 response.statusCode)
    else
      let contentDisp := response.contentDisposition.getD ""
      match matchQuotedLoose contentDisp with
      | none => .error .noFilenameMatch
      | some filenameComplement =>
        let fileSize := writerSize postingId (some filenameComplement) "complement"
        .ok ((some filenameComplement, some fileSize),
             [(postingId, some filenameComplement, "complement")])

/-- Function `fetch_avis_file`.  An empty link is a soft miss; a non-200
status raises; a missing `Content-Disposition` header returns
`(None, None)` without raising; a present header that does not match the
pattern raises `ValueError`. -/
def fetchAvisFile (postingId linkAvis : String) (writerSize : WriterSize)
    (backend : String → FileResponse) : FetchResult :=
  if linkAvis = "" then .ok ((none, none), [])
  else
    let response := backend (urlHost ++ linkAvis)
    if response.statusCode ≠ 200 then .error (.badStatus 0 response.statusCode)
    else
      match response.contentDisposition with
      | none => .ok ((none, none), [])
      | some cd =>
        match matchUnquoted cd with
        | none => .error .noFilenameMatch
        | some filenameAvis =>
          let fileSize := writerSize postingId (some filenameAvis) "avis"
          .ok ((some filenameAvis, some fileSize), [(postingId, some filenameAvis, "avis")])

/-- Deterministic backend for the three-step DCE flow:
`confirmationPage` answers the initial GET, `validateResponse token
cookie` the anonymous-requester POST of step 2, `downloadResponse token
cookie` the complete-download POST of step 3. -/
structure DceBackend where
  confirmationPage : FileResponse
  validateResponse : String → String → FileResponse
  downloadResponse : String → String → FileResponse

/-- Function `is_zip_file`: reads `response.headers['Content-Type']`
(a `KeyError` if absent) and accepts `application/octet-stream` or
`application/zip`. -/
def isZipFile (response : FileResponse) : Except FetchError Bool :=
  match response.contentType with
  | none => .error .missingContentType
  | some ct => .ok ((ct == "application/octet-stream") || (ct == "application/zip"))

/-- Function `fetch_dce_file`, step by step.  Step 1: GET the
confirmation page, assert 200, extract the token (`ValueError` if
absent), read `Set-Cookie` with a falsiness check (`if not cookie`, so
a missing or empty cookie raises).  Step 2: POST the anonymous-requester
choice replaying token and cookie, assert 200, extract the next token
(`ValueError` if absent).  Step 3: POST the complete download with the
newest token and the original cookie, assert 200, warn (only) on an
unexpected content type, then read `Content-Disposition`; a missing
header or a non-matching one returns `(None, None)` with no write,
otherwise the writer runs and the filename and size are returned. -/
def fetchDceFile (postingId _orgAcronym : String) (writerSize : WriterSize)
    (b : DceBackend) : FetchResult :=
  let responseDce := b.confirmationPage
  if responseDce.statusCode ≠ 200 then .error (.badStatus 1 responseDce.statusCode)
  else
    match responseDce.pageState with
    | none => .error (.missingPageState 1)
    | some pageState =>
      match responseDce.setCookie with
      | none => .error .missingCookie
      | some cookie =>
        if cookie = "" then .error .missingCookie
        else
          let responseAfterValidation := b.validateResponse pageState cookie
          if responseAfterValidation.statusCode ≠ 200 then
            .error (.badStatus 2 responseAfterValidation.statusCode)
          else
            match responseAfterValidation.pageState with
            | none => .error (.missingPageState 2)
            | some newPageState =>
              let responseDownload := b.downloadResponse newPageState cookie
              if responseDownload.statusCode ≠ 200 then
                .error (.badStatus 3 responseDownload.statusCode)
              else
                match isZipFile responseDownload with
                | .error e => .error e
                | .ok _ =>
                  match responseDownload.contentDisposition with
                  | none => .ok ((none, none), [])
                  | some cd =>
                    match matchQuotedStrict cd with
                    | none => .ok ((none, none), [])
                    | some filenameDce =>
                      let fileSize := writerSize postingId (some filenameDce) "dce"
                      .ok ((some filenameDce, some fileSize),
                           [(postingId, some filenameDce, "dce")])

/-! ### Posting page parser (`tasks/scrape/parse.py`)

`parse_posting_info` walks the elements of class `col-md-10
text-justify`; each is modelled by the two observations `extract_field`
makes of it: the stripped text of its first `<label>` (if any) and the
stripped text of the `<span>` inside its first `<div>` (if present —
a missing `<div>` or `<span>` both end in an exception). -/

/-- One info section of the posting page. -/
structure InfoSection where
  label : Option String
  value : Option String
deriving DecidableEq

/-- Ways `extract_field` fails: `IndexError` on `info_sections[idx]`,
the `ValueError` for a missing or unexpected label, and the error for a
missing value (`ValueError`, or the `AttributeError` of
`section.find('div')` being `None`). -/
inductive ParseError
  | indexOut (idx : Nat)
  | labelMismatch (idx : Nat) (expected : String)
  | valueMissing (expected : String)
deriving DecidableEq

/-- Function `extract_field`: index into the sections, require the label
text to equal the expected string exactly, then return the value
text. -/
def extractField (infoSections : List InfoSection) (idx : Nat) (expected : String) :
    Except ParseError String :=
  match infoSections.get? idx with
  | none => .error (.indexOut idx)
  | some sec =>
    match sec.label with
    | none => .error (.labelMismatch idx expected)
    | some foundLabel =>
      if foundLabel ≠ expected then .error (.labelMismatch idx expected)
      else
        match sec.value with
        | none => .error (.valueMissing expected)
        | some v => .ok v

/-- Record `parse_posting_info` returns. -/
structure PostingInfo where
  reference : String
  title : String
  description : String
  organization : String
deriving DecidableEq

/-- Function `parse_posting_info`: the four `extract_field` calls at
fixed indices with their fixed French labels, in order. -/
def parsePostingInfo (infoSections : List InfoSection) : Except ParseError PostingInfo :=
  match extractField infoSections 0 "Référence :" with
  | .error e => .error e
  | .ok reference =>
    match extractField infoSections 1 "Intitulé :" with
    | .error e => .error e
    | .ok title =>
      match extractField infoSections 2 "Objet :" with
      | .error e => .error e
      | .ok description =>
        match extractField infoSections 3 "Organisme :" with
        | .error e => .error e
        | .ok organization =>
          .ok { reference := reference, title := title,
                description := description, organization := organization }

/-- Label of section `idx`, if the section and its label exist. -/
def labelAt (infoSections : List InfoSection) (idx : Nat) : Option String :=
  (infoSections.get? idx).bind (·.label)

/-- Value of section `idx`, if the section and its value exist. -/
def valueAt (infoSections : List InfoSection) (idx : Nat) : Option String :=
  (infoSections.get? idx).bind (·.value)

/-- All four fixed-position labels match their expected strings. -/
def labelsAllMatch (infoSections : List InfoSection) : Bool :=
  (labelAt infoSections 0 == some "Référence :") &&
  (labelAt infoSections 1 == some "Intitulé :") &&
  (labelAt infoSections 2 == some "Objet :") &&
  (labelAt infoSections 3 == some "Organisme :")

/-! ### Bulk retrieval (`workflows/files.py` with `storage/local/queries.py`)

`download_pending_files` iterates over the `(posting, link)` pairs
`get_pending_links` returned, calls the `PostingFileFetcher` on each and
updates counters, archive entries and the posting's fetching status.
The loop body has no try/except: an exception from the fetcher escapes
and aborts the whole run, with the statuses committed so far kept (each
`update_posting_fetching_status` commits).  The fetcher is abstracted as
a function from `(posting_id, kind, url)` to its outcome. -/

/-- Outcome of one `PostingFileFetcher.__call__`: the returned filename
(possibly `None`) or a raised exception. -/
inductive FetchOutcome
  | ok (filename : Option String)
  | exc
deriving DecidableEq

/-- Abstracted `PostingFileFetcher`: outcome per
`(posting_id, kind, url)` call. -/
def BulkFetcher : Type := Nat → String → String → FetchOutcome

/-- One `(posting, link)` row of the `get_pending_links` join: the
posting id with the link's kind and URL. -/
structure PendingRecord where
  postingId : Nat
  kind : String
  url : String
deriving DecidableEq

/-- The store as the bulk run touches it: the `fetching_status` column
of the `posting` table (an association list on posting id) and the
recorded archive entries `(archive_name, posting_id)`. -/
structure BulkDb where
  statuses : List (Nat × FetchingStatus)
  archives : List (String × Nat)
deriving DecidableEq

/-- Function `update_posting_fetching_status` of
`storage/local/queries.py`: select the posting by id, raise `ValueError`
(`none` here) when it does not exist, otherwise set its status and
commit. -/
def updatePostingFetchingStatus (postingId : Nat) (status : FetchingStatus) :
    List (Nat × FetchingStatus) → Option (List (Nat × FetchingStatus))
  | [] => none
  | (pid, old) :: rest =>
    if pid = postingId then some ((pid, status) :: rest)
    else
      match updatePostingFetchingStatus postingId status rest with
      | some rest' => some ((pid, old) :: rest')
      | none => none

/-- One iteration of the `for posting, link in records:` loop of
`download_pending_files`.  `fetcher(link.kind, link.url)` may raise
(`.error` aborts the run with the store as committed so far); a returned
filename records the archive entry via `local_archive_name` and
`record_archive_entries`, bumps `num_success` and marks the posting
`SUCCESS`; a `None` filename bumps `num_failure` and marks the posting
`FAILURE`.  A failing status update (missing posting) also raises. -/
def bulkStep (fetcher : BulkFetcher) (db : BulkDb) (counts : Nat × Nat)
    (record : PendingRecord) : Except BulkDb (BulkDb × (Nat × Nat)) :=
  match fetcher record.postingId record.kind record.url with
  | .exc => .error db
  | .ok none =>
    match updatePostingFetchingStatus record.postingId .failure db.statuses with
    | none => .error db
    | some statuses' => .ok ({ db with statuses := statuses' }, (counts.1, counts.2 + 1))
  | .ok (some fileName) =>
    match updatePostingFetchingStatus record.postingId .success db.statuses with
    | none =>
      .error { db with archives :=
        (localArchiveName (Nat.repr record.postingId) fileName record.kind,
         record.postingId) :: db.archives }
    | some statuses' =>
      .ok ({ statuses := statuses',
             archives := (localArchiveName (Nat.repr record.postingId) fileName record.kind,
                          record.postingId) :: db.archives },
           (counts.1 + 1, counts.2))

/-- The loop of `download_pending_files` from a given counter pair. -/
def downloadPendingFilesFrom (fetcher : BulkFetcher) :
    List PendingRecord → BulkDb → Nat × Nat → Except BulkDb ((Nat × Nat) × BulkDb)
  | [], db, counts => .ok (counts, db)
  | record :: rest, db, counts =>
    match bulkStep fetcher db counts record with
    | .error db' => .error db'
    | .ok (db', counts') => downloadPendingFilesFrom fetcher rest db' counts'

/-- Function `download_pending_files`: run the loop over the pending
records with `num_success, num_failure = 0, 0` and return
`(num_success, num_failure)`; an uncaught exception aborts the run
(`.error` carries the store state at the abort — no counts are
returned). -/
def downloadPendingFiles (fetcher : BulkFetcher) (records : List PendingRecord)
    (db : BulkDb) : Except BulkDb ((Nat × Nat) × BulkDb) :=
  downloadPendingFilesFrom fetcher records db (0, 0)

/-- Store states the bulk run passes through: the initial store, then
the store after each processed record, ending early at an abort (whose
state is included last). -/
def bulkTrace (fetcher : BulkFetcher) :
    List PendingRecord → BulkDb → Nat × Nat → List BulkDb
  | [], db, _ => [db]
  | record :: rest, db, counts =>
    db ::
      match bulkStep fetcher db counts record with
      | .error db' => [db']
      | .ok (db', counts') => bulkTrace fetcher rest db' counts'

/-- Status of a posting in the store (`List.lookup` on the posting
table). -/
def statusOf (postingId : Nat) (db : BulkDb) : Option FetchingStatus :=
  db.statuses.lookup postingId

/-! ### Spec-side description of the advance step

For the refinement claim about the pagination advance, a second
definition transcribes the specification's own words (§4.1 "Advance" and
"Failure semantics", §7), to be compared with `nextBatch` above. -/

/-- Outcome of one advance as the spec describes it: normal end of
sequence, fatal transport error, or success carrying the returned batch,
the new token, the new previous-raw-list and the new seen set. -/
inductive AdvanceSpecOutcome
  | endOfSequence
  | fatal
  | success (batch : List String) (newToken : String) (newRaw : List String)
      (newSeen : List String)
deriving DecidableEq

/-- Transcription of the spec's words: "The sequence ends (not an error)
when, in order: response status is 500; no new token is found; the new
token equals the current one; the newly parsed raw link list equals the
previous raw list; or the deduplicated result (after removing
already-seen URLs) is empty.  On success, update token and
previous-raw-list, union the deduplicated batch into the seen set,
return it." — with "any HTTP error other than the defined
500-termination signal is fatal" for the remaining statuses. -/
def advanceSpec (st : IterState) (response : SearchResponse) : AdvanceSpecOutcome :=
  if response.statusCode = 500 then .endOfSequence
  else if response.statusCode ≠ 200 then .fatal
  else
    match response.pageState with
    | none => .endOfSequence
    | some newToken =>
      if newToken = st.pageState then .endOfSequence
      else if st.previousLinks = some response.links then .endOfSequence
      else
        let deduplicated := response.links.filter (fun url => !(st.seenLinks.contains url))
        if deduplicated = [] then .endOfSequence
        else .success deduplicated newToken response.links (st.seenLinks ++ deduplicated)

/-- Decimal digit list of a natural number (most significant first);
reference function used to reason about `Nat.repr`, which produces
exactly these characters. -/
def natDigits (n : Nat) : List Char :=
  if _h : n < 10 then [Nat.digitChar n]
  else natDigits (n / 10) ++ [Nat.digitChar (n % 10)]
termination_by n
decreasing_by
  exact Nat.div_lt_self (by omega) (by omega)

/-! ### Concrete scenarios

Small deterministic backends, stores and fetchers used to evaluate the
embedded code on closed inputs. -/

/-- Writer size oracle that reports zero bytes for every write. -/
def zeroWriter : WriterSize := fun _ _ _ => 0

/-- Three postings with one pending link each; the fetch of posting 2
raises, the others return a filename. -/
def c1Records : List PendingRecord :=
  [⟨1, "avis", "u1"⟩, ⟨2, "dce", "u2"⟩, ⟨3, "avis", "u3"⟩]

/-- Fetcher for `c1Records`: posting 2 raises, postings 1 and 3 return
filenames. -/
def c1Fetcher : BulkFetcher := fun postingId _ _ =>
  if postingId = 2 then .exc
  else if postingId = 1 then .ok (some "a") else .ok (some "b")

/-- Store with postings 1, 2, 3 all `PENDING` and no archives. -/
def c1Db : BulkDb :=
  ⟨[(1, .pending), (2, .pending), (3, .pending)], []⟩

/-- Fetcher where only posting 2's fetch yields no filename (soft miss)
and no fetch raises. -/
def c1SoftFetcher : BulkFetcher := fun postingId _ _ =>
  if postingId = 2 then .ok none
  else if postingId = 1 then .ok (some "a") else .ok (some "b")

/-- Backend whose search has a single page: the page-size POST returns
one link and the first pagination POST answers 500. -/
def c2Backend : SearchBackend where
  initResponse := ⟨200, [], some "t0", some "c0"⟩
  pageSizeResponse := fun _ _ _ => ⟨200, ["a"], some "t1", some "c0"⟩
  nextPageResponse := fun _ _ => ⟨500, [], none, none⟩

/-- State of a fresh iterator over `c2Backend`. -/
def c2St0 : IterState :=
  ⟨["a"], "t1", "c0", none, false, ["a"], 0, 0, 0⟩

/-- State after the first `__next__` on `c2St0` (the initial batch was
yielded; no new links were counted). -/
def c2St1 : IterState :=
  ⟨["a"], "t1", "c0", some ["a"], false, ["a"], 0, 0, 0⟩

/-- Two-page backend used for a resumed run: the store already holds
`s1`; the page-size POST returns `[u1, s1]` and the page after token
`t1` returns `[s1, u2]`. -/
def resumeBackend : SearchBackend where
  initResponse := ⟨200, [], some "t0", some "c0"⟩
  pageSizeResponse := fun _ _ _ => ⟨200, ["u1", "s1"], some "t1", some "c0"⟩
  nextPageResponse := fun pageState _ =>
    if pageState = "t1" then ⟨200, ["s1", "u2"], some "t2", some "c0"⟩
    else ⟨500, [], none, none⟩

/-- State `from_storage` produces over `resumeBackend` with stored URL
`s1`: the fetched links minus the seed, and a seen set that no longer
contains the seed. -/
def resumeSt0 : IterState :=
  ⟨["u1"], "t1", "c0", none, false, ["u1"], 0, 0, 0⟩

/-- Three-page backend for a fresh run: pages `[a, b]`, `[b, c]`,
`[c, d]`, then a 500. -/
def c4Backend : SearchBackend where
  initResponse := ⟨200, [], some "t0", some "c0"⟩
  pageSizeResponse := fun _ _ _ => ⟨200, ["a", "b"], some "t1", some "c0"⟩
  nextPageResponse := fun pageState _ =>
    if pageState = "t1" then ⟨200, ["b", "c"], some "t2", some "c0"⟩
    else if pageState = "t2" then ⟨200, ["c", "d"], some "t3", some "c0"⟩
    else ⟨500, [], none, none⟩

/-- State of a fresh iterator over `c4Backend`. -/
def c4St0 : IterState :=
  ⟨["a", "b"], "t1", "c0", none, false, ["a", "b"], 0, 0, 0⟩

/-- One posting with two pending links. -/
def c5Records : List PendingRecord :=
  [⟨7, "avis", "u1"⟩, ⟨7, "dce", "u2"⟩]

/-- Fetcher for `c5Records`: the first link yields no filename, the
second yields one. -/
def c5Fetcher : BulkFetcher := fun _ _ url =>
  if url = "u1" then .ok none else .ok (some "f")

/-- Store with the single posting 7 `PENDING`. -/
def c5Db : BulkDb := ⟨[(7, .pending)], []⟩

/-- Two postings with one pending link each. -/
def c5wRecords : List PendingRecord :=
  [⟨1, "avis", "u1"⟩, ⟨2, "dce", "u2"⟩]

/-- Fetcher for `c5wRecords`: posting 1 succeeds, posting 2 soft
misses. -/
def c5wFetcher : BulkFetcher := fun postingId _ _ =>
  if postingId = 1 then .ok (some "f") else .ok none

/-- Store with postings 1 and 2 `PENDING`. -/
def c5wDb : BulkDb := ⟨[(1, .pending), (2, .pending)], []⟩

/-- Backend whose next page after token `t1` is `[q]` with token
`t2`. -/
def c6Backend : SearchBackend where
  initResponse := ⟨200, [], some "t0", some "c0"⟩
  pageSizeResponse := fun _ _ _ => ⟨200, ["p"], some "t1", some "c0"⟩
  nextPageResponse := fun _ _ => ⟨200, ["q"], some "t2", some "c0"⟩

/-- Iterator state that has already yielded its initial batch `[p]`. -/
def c6St : IterState :=
  ⟨["p"], "t1", "c0", some ["p"], false, ["p"], 0, 0, 0⟩

/-- File backend whose responses are 200 but carry no
`Content-Disposition` header. -/
def c7Backend : String → FileResponse := fun _ =>
  ⟨200, none, none, some "application/zip", none⟩

/-- DCE backend whose confirmation page is healthy but whose step-2
response body carries no PRADO_PAGESTATE token. -/
def c9Backend : DceBackend where
  confirmationPage := ⟨200, some "t1", some "ck", some "text/html", none⟩
  validateResponse := fun _ _ => ⟨200, none, none, some "text/html", none⟩
  downloadResponse := fun _ _ => ⟨200, none, none, some "application/zip",
    some "attachment; filename=\"dce.zip\";"⟩

/-- Posting page sections whose four labels all match. -/
def goodSections : List InfoSection :=
  [⟨some "Référence :", some "REF"⟩,
   ⟨some "Intitulé :", some "TITLE"⟩,
   ⟨some "Objet :", some "DESC"⟩,
   ⟨some "Organisme :", some "ORG"⟩]

/-! ## Theorems

First the helper lemmas, then one theorem per claim (with its witness or
counterexample where required). -/

/-! ### Bulk run lemmas -/

/-- A successful status update leaves every other posting's row
untouched. -/
theorem updatePostingFetchingStatus_lookup_other {postingId : Nat} {status : FetchingStatus}
    {l l' : List (Nat × FetchingStatus)} (q : Nat)
    (h : updatePostingFetchingStatus postingId status l = some l') (hq : q ≠ postingId) :
    l'.lookup q = l.lookup q := by
  induction l generalizing l' with
  | nil => simp [updatePostingFetchingStatus] at h
  | cons head rest ih =>
    obtain ⟨pid, old⟩ := head
    by_cases hpid : pid = postingId
    · subst hpid
      simp [updatePostingFetchingStatus] at h
      subst h
      have hqpid : (q == pid) = false := beq_eq_false_iff_ne.mpr hq
      simp [List.lookup, hqpid]
    · simp only [updatePostingFetchingStatus, if_neg hpid] at h
      cases hr : updatePostingFetchingStatus postingId status rest with
      | none => rw [hr] at h; cases h
      | some rest' =>
        rw [hr] at h
        simp only [Option.some.injEq] at h
        subst h
        by_cases hqp : q = pid
        · subst hqp; simp [List.lookup]
        · have hqpid : (q == pid) = false := beq_eq_false_iff_ne.mpr hqp
          simp [List.lookup, hqpid, ih hr]

/-- An aborting loop iteration never changes the status table (the
exception escapes before, or instead of, the commit). -/
theorem bulkStep_error_statuses {fetcher : BulkFetcher} {db : BulkDb} {counts : Nat × Nat}
    {record : PendingRecord} {db' : BulkDb}
    (h : bulkStep fetcher db counts record = .error db') : db'.statuses = db.statuses := by
  unfold bulkStep at h
  split at h
  · simp only [Except.error.injEq] at h; subst h; rfl
  · split at h
    · simp only [Except.error.injEq] at h; subst h; rfl
    · exact Except.noConfusion h
  · split at h
    · simp only [Except.error.injEq] at h; subst h; rfl
    · exact Except.noConfusion h

/-- A completed loop iteration changes no other posting's status. -/
theorem bulkStep_ok_statusOf_other {fetcher : BulkFetcher} {db : BulkDb} {counts : Nat × Nat}
    {record : PendingRecord} {db' : BulkDb} {counts' : Nat × Nat} (q : Nat)
    (h : bulkStep fetcher db counts record = .ok (db', counts')) (hq : q ≠ record.postingId) :
    statusOf q db' = statusOf q db := by
  unfold bulkStep at h
  split at h
  · exact Except.noConfusion h
  · split at h
    · exact Except.noConfusion h
    · rename_i hu
      simp only [Except.ok.injEq, Prod.mk.injEq] at h
      obtain ⟨hdb, -⟩ := h
      subst hdb
      exact updatePostingFetchingStatus_lookup_other q hu hq
  · split at h
    · exact Except.noConfusion h
    · rename_i hu
      simp only [Except.ok.injEq, Prod.mk.injEq] at h
      obtain ⟨hdb, -⟩ := h
      subst hdb
      exact updatePostingFetchingStatus_lookup_other q hu hq

/-- The trace always starts at the store it was given. -/
theorem bulkTrace_head (fetcher : BulkFetcher) (records : List PendingRecord)
    (db : BulkDb) (counts : Nat × Nat) :
    (bulkTrace fetcher records db counts).head? = some db := by
  cases records <;> rfl

/-- A posting mentioned by no record keeps its status at every step of
the trace. -/
theorem bulkTrace_chain_eq (fetcher : BulkFetcher) (postingId : Nat) :
    ∀ (records : List PendingRecord) (db : BulkDb) (counts : Nat × Nat),
    (∀ r ∈ records, r.postingId ≠ postingId) →
    List.Chain' (fun d1 d2 => statusOf postingId d2 = statusOf postingId d1)
      (bulkTrace fetcher records db counts) := by
  intro records
  induction records with
  | nil => intro db counts _; simp [bulkTrace]
  | cons record rest ih =>
    intro db counts h
    rw [bulkTrace]
    cases hs : bulkStep fetcher db counts record with
    | error db' =>
      have heq : statusOf postingId db' = statusOf postingId db := by
        simp [statusOf, bulkStep_error_statuses hs]
      simp [List.chain'_cons, heq]
    | ok p =>
      obtain ⟨db', counts'⟩ := p
      refine List.chain'_cons'.mpr ⟨?_, ih db' counts' ?_⟩
      · intro y hy
        rw [bulkTrace_head] at hy
        cases hy
        exact bulkStep_ok_statusOf_other postingId hs
          (Ne.symm (h record (List.mem_cons_self _ _)))
      · intro r hr; exact h r (List.mem_cons_of_mem record hr)

/-! ### Claim C1 — bulk retrieval and exceptions -/

/-- Claim C1, counterexample.  With 3 pending postings where only the
2nd's link fetch raises, `download_pending_files` does not mark posting
2 `Failure` and continue: the loop body has no try/except, so the
exception aborts the whole run after posting 1 was processed — posting 1
is `Success`, postings 2 and 3 are still `Pending`, and no
`(successes, failures)` pair is returned. -/
theorem bulk_exception_aborts_run :
    downloadPendingFiles c1Fetcher c1Records c1Db =
      Except.error ⟨[(1, .success), (2, .pending), (3, .pending)], [("1.a.avis.zip", 1)]⟩ := by
  rfl

/-- Claim C1, amended: the counted-and-continued failure of the bulk
loop is the soft miss (the fetch returns, with no filename), not an
exception.  For any three distinct pending postings where the 1st and
3rd fetches return filenames and the 2nd returns none, the run marks
postings 1 and 3 `Success`, posting 2 `Failure`, continues past the
miss, and returns `(success=2, failure=1)`. -/
theorem bulk_soft_miss_counted (p1 p2 p3 : Nat) (k1 k2 k3 u1 u2 u3 f1 f3 : String)
    (fetcher : BulkFetcher)
    (h1 : fetcher p1 k1 u1 = .ok (some f1))
    (h2 : fetcher p2 k2 u2 = .ok none)
    (h3 : fetcher p3 k3 u3 = .ok (some f3))
    (h12 : p1 ≠ p2) (h13 : p1 ≠ p3) (h23 : p2 ≠ p3) :
    downloadPendingFiles fetcher [⟨p1, k1, u1⟩, ⟨p2, k2, u2⟩, ⟨p3, k3, u3⟩]
        ⟨[(p1, .pending), (p2, .pending), (p3, .pending)], []⟩ =
      Except.ok ((2, 1),
        ⟨[(p1, .success), (p2, .failure), (p3, .success)],
         [(localArchiveName (Nat.repr p3) f3 k3, p3),
          (localArchiveName (Nat.repr p1) f1 k1, p1)]⟩) := by
  simp [downloadPendingFiles, downloadPendingFilesFrom, bulkStep,
    updatePostingFetchingStatus, h1, h2, h3, h12, h13, h23, h12.symm, h13.symm, h23.symm]

/-- Witness for `bulk_soft_miss_counted` at postings 1, 2, 3 with the
concrete soft-miss fetcher. -/
theorem bulk_soft_miss_counted_witness :
    downloadPendingFiles c1SoftFetcher [⟨1, "avis", "u1"⟩, ⟨2, "dce", "u2"⟩, ⟨3, "avis", "u3"⟩]
        ⟨[(1, .pending), (2, .pending), (3, .pending)], []⟩ =
      Except.ok ((2, 1),
        ⟨[(1, .success), (2, .failure), (3, .success)],
         [("3.b.avis.zip", 3), ("1.a.avis.zip", 1)]⟩) :=
  bulk_soft_miss_counted 1 2 3 "avis" "dce" "avis" "u1" "u2" "u3" "a" "b" c1SoftFetcher
    rfl rfl rfl (by decide) (by decide) (by decide)

/-! ### Claim C5 — status transitions -/

/-- Claim C5, counterexample.  A posting with two pending links is
updated once per link: with outcomes (no filename, then a filename) it
is marked `Failure` and then `Success` in the same bulk run — a
backward `Failure → Success` transition. -/
theorem bulk_failure_then_success :
    bulkTrace c5Fetcher c5Records c5Db (0, 0) =
        [⟨[(7, .pending)], []⟩, ⟨[(7, .failure)], []⟩,
         ⟨[(7, .success)], [("7.f.dce.zip", 7)]⟩] ∧
      statusOf 7 ⟨[(7, .failure)], []⟩ = some .failure ∧
      statusOf 7 ⟨[(7, .success)], [("7.f.dce.zip", 7)]⟩ = some .success := by
  refine ⟨by rfl, rfl, rfl⟩

/-- Claim C5, amended: the per-record status write is unconditional, so
the Pending→Success / Pending→Failure no-backward property holds for a
posting processed by at most one record of the run.  For such a posting
starting `Pending`, along the whole store trace of the bulk run, once
its status differs from `Pending` it never changes again. -/
theorem bulkTrace_chain_single (fetcher : BulkFetcher) (postingId : Nat) :
    ∀ (records : List PendingRecord) (db : BulkDb) (counts : Nat × Nat),
    records.countP (fun r => r.postingId == postingId) ≤ 1 →
    statusOf postingId db = some .pending →
    List.Chain' (fun d1 d2 => statusOf postingId d1 ≠ some .pending →
        statusOf postingId d2 = statusOf postingId d1)
      (bulkTrace fetcher records db counts) := by
  intro records
  induction records with
  | nil => intro db counts _ _; simp [bulkTrace]
  | cons record rest ih =>
    intro db counts hcount hinit
    rw [bulkTrace]
    by_cases hrec : record.postingId = postingId
    · have hrest : rest.countP (fun r => r.postingId == postingId) = 0 := by
        have hif : (if (record.postingId == postingId) = true then 1 else 0) = 1 := by
          simp [hrec]
        rw [List.countP_cons, hif] at hcount
        omega
      have hnone : ∀ r ∈ rest, r.postingId ≠ postingId := by
        intro r hr
        have := List.countP_eq_zero.mp hrest r hr
        simpa using this
      cases hs : bulkStep fetcher db counts record with
      | error db' =>
        refine List.chain'_cons'.mpr ⟨?_, List.chain'_singleton db'⟩
        intro y hy hne
        exact absurd hinit hne
      | ok p =>
        obtain ⟨db', counts'⟩ := p
        refine List.chain'_cons'.mpr ⟨?_, ?_⟩
        · intro y hy hne
          exact absurd hinit hne
        · have hchain := bulkTrace_chain_eq fetcher postingId rest db' counts' hnone
          exact @List.Chain'.imp BulkDb
            (fun d1 d2 => statusOf postingId d2 = statusOf postingId d1)
            (fun d1 d2 => statusOf postingId d1 ≠ some FetchingStatus.pending →
                statusOf postingId d2 = statusOf postingId d1)
            (fun d1 d2 heq _ => heq) _ hchain
    · cases hs : bulkStep fetcher db counts record with
      | error db' =>
        refine List.chain'_cons'.mpr ⟨?_, List.chain'_singleton db'⟩
        intro y hy _
        cases hy
        simp [statusOf, bulkStep_error_statuses hs]
      | ok p =>
        obtain ⟨db', counts'⟩ := p
        have hother : statusOf postingId db' = statusOf postingId db :=
          bulkStep_ok_statusOf_other postingId hs (Ne.symm hrec)
        refine List.chain'_cons'.mpr ⟨?_, ?_⟩
        · intro y hy _
          rw [bulkTrace_head] at hy
          cases hy
          exact hother
        · refine ih db' counts' ?_ ?_
          · rw [List.countP_cons] at hcount
            have hif : (if (record.postingId == postingId) = true then 1 else 0) = 0 := by
              simp [hrec]
            omega
          · rw [hother, hinit]

/-- Claim C5, amended: the per-record status write is unconditional, so
the Pending→Success / Pending→Failure no-backward property holds for a
posting processed by at most one record of the run.  For such a posting
starting `Pending`, along the whole store trace of the bulk run, once
its status differs from `Pending` it never changes again. -/
theorem single_record_status_transition (fetcher : BulkFetcher) (records : List PendingRecord)
    (db : BulkDb) (postingId : Nat)
    (hcount : records.countP (fun r => r.postingId == postingId) ≤ 1)
    (hinit : statusOf postingId db = some .pending) :
    List.Chain' (fun d1 d2 => statusOf postingId d1 ≠ some .pending →
        statusOf postingId d2 = statusOf postingId d1)
      (bulkTrace fetcher records db (0, 0)) :=
  bulkTrace_chain_single fetcher postingId records db (0, 0) hcount hinit

/-- Witness for `single_record_status_transition` with two postings that
each appear in one record. -/
theorem single_record_status_transition_witness :
    List.Chain' (fun d1 d2 => statusOf 1 d1 ≠ some .pending →
        statusOf 1 d2 = statusOf 1 d1)
      (bulkTrace c5wFetcher c5wRecords c5wDb (0, 0)) :=
  single_record_status_transition c5wFetcher c5wRecords c5wDb 1 (by decide) rfl

/-! ### Claim C2 — the `ensure_n_new_links` mode loops forever -/

/-- An exhausted iterator answers every `__next__` with `StopIteration`
and does not change its state. -/
theorem nextBatch_exhausted (b : SearchBackend) (st : IterState) (h : st.exhausted = true) :
    nextBatch b st = (.stop, st) := by
  simp [nextBatch, h]

/-- Once the iterator is exhausted while fewer than the requested new
links were counted, the `ensure_n_new_links` loop never exits: the inner
`for` ends immediately, the `while` condition stays true, and no fuel
suffices. -/
theorem ensureLoop_exhausted_stuck (b : SearchBackend) (ensureNNewLinks : Nat) (st : IterState)
    (hex : st.exhausted = true) (hlt : st.numNewLinks < ensureNNewLinks) :
    ∀ (fuel : Nat) (phase : EnsurePhase) (out : List (List String)),
    ensureLoop b ensureNNewLinks fuel phase st out = none := by
  intro fuel
  induction fuel with
  | zero => intro phase out; rfl
  | succ n ih =>
    intro phase out
    cases phase with
    | whileCheck =>
      rw [ensureLoop, if_pos hlt]
      exact ih .forLoop out
    | forLoop =>
      rw [ensureLoop, nextBatch_exhausted b st hex]
      exact ih .whileCheck out

/-- Claim C2 (the code has the bug the spec denies): over `c2Backend`
the freshly initialised iterator `c2St0` has counted 0 new links (the
initial batch is never counted), the backend then terminates the
sequence, and `iter_n_batches` with `ensure_n_new_links = 1` never
exits: for every amount of fuel, from either control point and with any
accumulator, the loop is still running.  The call loops forever instead
of terminating when the iterator exhausts early. -/
theorem ensure_mode_never_terminates :
    initIterator c2Backend none = Except.ok c2St0 ∧
    ∀ (fuel : Nat) (phase : EnsurePhase) (out : List (List String)),
    ensureLoop c2Backend 1 fuel phase c2St0 out = none := by
  refine ⟨rfl, ?_⟩
  have key : ∀ (fuel : Nat) (st : IterState), st.numNewLinks = 0 →
      (st = c2St0 ∨ st = c2St1 ∨ st.exhausted = true) →
      ∀ (phase : EnsurePhase) (out : List (List String)),
      ensureLoop c2Backend 1 fuel phase st out = none := by
    intro fuel
    induction fuel with
    | zero => intro st _ _ phase out; rfl
    | succ n ih =>
      intro st hnum hst phase out
      cases phase with
      | whileCheck =>
        rw [ensureLoop, if_pos (by rw [hnum]; exact Nat.zero_lt_one)]
        exact ih st hnum hst .forLoop out
      | forLoop =>
        rcases hst with h0 | h1 | hex
        · subst h0
          rw [ensureLoop, show nextBatch c2Backend c2St0 = (.batch ["a"], c2St1) from rfl]
          exact ih c2St1 rfl (Or.inr (Or.inl rfl)) .forLoop (["a"] :: out)
        · subst h1
          rw [ensureLoop,
            show nextBatch c2Backend c2St1 = (.stop, { c2St1 with exhausted := true }) from rfl]
          exact ih { c2St1 with exhausted := true } rfl (Or.inr (Or.inr rfl)) .whileCheck out
        · rw [ensureLoop, nextBatch_exhausted c2Backend st hex]
          exact ih st hnum (Or.inr (Or.inr hex)) .whileCheck out
  intro fuel phase out
  exact key fuel c2St0 rfl (Or.inl rfl) phase out

/-! ### Claim C3 — resume-initialization -/

/-- Claim C3 (the code contradicts it and its own docstring): resumed
from a store holding `s1` over `resumeBackend`, the machine still runs
the GET and the page-size POST (its state is built from
`pageSizeResponse`), its first batch is `[u1]` — the freshly fetched
links minus the seed, not the seeded stored set — and the seen set has
been overwritten to `[u1]`, losing `s1`, so the stored URL `s1` is
yielded again in the very next batch. -/
theorem from_storage_reposts_and_drops_seed :
    fromStorage resumeBackend ["s1"] = Except.ok resumeSt0 ∧
    resumeSt0.links =
      (resumeBackend.pageSizeResponse "t0" "c0" 20).links.filter
        (fun link => !(["s1"].contains link)) ∧
    resumeSt0.seenLinks = ["u1"] ∧
    (nextBatch resumeBackend resumeSt0).1 = .batch ["u1"] ∧
    (nextBatch resumeBackend (nextBatch resumeBackend resumeSt0).2).1 = .batch ["s1", "u2"] := by
  refine ⟨rfl, by decide, by decide, by decide, by decide⟩

/-! ### Claim C4 — a URL is yielded at most once per run -/

/-- A deduplicated link is one of the raw links and is not in the seen
set. -/
theorem mem_deduplicateLinks {seenLinks links : List String} {url : String}
    (h : url ∈ deduplicateLinks seenLinks links) : url ∈ links ∧ url ∉ seenLinks := by
  simp only [deduplicateLinks, List.mem_filter, Bool.not_eq_true'] at h
  refine ⟨h.1, fun hmem => ?_⟩
  have hfalse := h.2
  unfold List.contains at hfalse
  rw [List.elem_eq_true_of_mem hmem] at hfalse
  exact Bool.noConfusion hfalse

/-- What a non-first `__next__` that returns a batch guarantees: the
batch avoids the old seen set, the new seen set is the old one plus the
batch, and the state stays past its first call. -/
theorem nextBatch_batch_spec {b : SearchBackend} {st st' : IterState}
    {prev batchLinks : List String}
    (hprev : st.previousLinks = some prev)
    (h : nextBatch b st = (.batch batchLinks, st')) :
    (∀ url ∈ batchLinks, url ∉ st.seenLinks) ∧
    st'.seenLinks = st.seenLinks ++ batchLinks ∧
    ∃ raw, st'.previousLinks = some raw := by
  unfold nextBatch at h
  split at h
  · simp at h
  · rw [hprev] at h
    dsimp only at h
    split at h
    · simp at h
    · split at h
      · simp at h
      · split at h
        · simp at h
        · split at h
          · simp at h
          · split at h
            · simp at h
            · split at h
              · simp at h
              · simp only [Prod.mk.injEq, StepResult.batch.injEq] at h
                obtain ⟨hb, hst⟩ := h
                subst hst
                subst hb
                refine ⟨?_, rfl, ⟨_, rfl⟩⟩
                intro url hu
                exact (mem_deduplicateLinks hu).2

/-- From any state past its first call, the batches the iterator still
yields are pairwise disjoint and all avoid the current seen set. -/
theorem stepsFrom_disjoint_after_first (b : SearchBackend) :
    ∀ (n : Nat) (st : IterState) (prev : List String), st.previousLinks = some prev →
    (stepsFrom b n st).Pairwise List.Disjoint ∧
    ∀ batchLinks ∈ stepsFrom b n st, ∀ url ∈ batchLinks, url ∉ st.seenLinks := by
  intro n
  induction n with
  | zero => intro st prev hprev; simp [stepsFrom]
  | succ m ih =>
    intro st prev hprev
    rcases hnb : nextBatch b st with ⟨res, st'⟩
    cases res with
    | stop => simp [stepsFrom, hnb]
    | fail code => simp [stepsFrom, hnb]
    | batch batchLinks =>
      simp only [stepsFrom, hnb]
      obtain ⟨hdis, hseen, raw, hraw⟩ := nextBatch_batch_spec hprev hnb
      obtain ⟨ihp, ihs⟩ := ih st' raw hraw
      constructor
      · refine List.pairwise_cons.mpr ⟨?_, ihp⟩
        intro b' hb' url hub hub'
        exact ihs b' hb' url hub' (by rw [hseen]; exact List.mem_append_right _ hub)
      · intro bl hbl url hu
        rcases List.mem_cons.mp hbl with rfl | hbl'
        · exact hdis url hu
        · intro hmem
          exact ihs bl hbl' url hu (by rw [hseen]; exact List.mem_append_left _ hmem)

/-- Fields `__init__` guarantees whenever it returns: no call was made
yet, the seen set equals the initial links, and the machine is not
exhausted. -/
theorem initIterator_fields {b : SearchBackend} {links? : Option (List String)} {st : IterState}
    (h : initIterator b links? = .ok st) :
    st.previousLinks = none ∧ st.seenLinks = st.links ∧ st.exhausted = false := by
  unfold initIterator at h
  rcases hi : initializeState b with e | ⟨r1, ps, ck⟩
  · rw [hi] at h
    dsimp only at h
    exact Except.noConfusion h
  · rw [hi] at h
    dsimp only at h
    rcases hinc : incrementState b ps ck 20 with e | ⟨r2, nps, ck2⟩
    · rw [hinc] at h
      dsimp only at h
      exact Except.noConfusion h
    · rw [hinc] at h
      dsimp only at h
      simp only [Except.ok.injEq] at h
      subst h
      exact ⟨rfl, rfl, rfl⟩

/-- Claim C4: within one run — any backend, either initialization mode —
the batches the pagination state machine emits are pairwise disjoint: no
URL appears in more than one yielded batch, because each batch is
filtered against the monotonically growing seen set and then unioned
into it (and the initial batch seeds that set). -/
theorem pagination_batches_pairwise_disjoint (b : SearchBackend) (links? : Option (List String))
    (st : IterState) (h : initIterator b links? = .ok st) (n : Nat) :
    (stepsFrom b n st).Pairwise List.Disjoint := by
  obtain ⟨hprev, hseen, hex⟩ := initIterator_fields h
  cases n with
  | zero => simp [stepsFrom]
  | succ m =>
    have hnb : nextBatch b st = (.batch st.links, { st with previousLinks := some st.links }) := by
      simp [nextBatch, hex, hprev]
    simp only [stepsFrom, hnb]
    obtain ⟨ihp, ihs⟩ :=
      stepsFrom_disjoint_after_first b m { st with previousLinks := some st.links } st.links rfl
    refine List.pairwise_cons.mpr ⟨?_, ihp⟩
    intro b' hb' url hub hub'
    refine ihs b' hb' url hub' ?_
    show url ∈ st.seenLinks
    rw [hseen]
    exact hub

/-- Witness for `pagination_batches_pairwise_disjoint` over the concrete
three-page backend. -/
theorem pagination_batches_pairwise_disjoint_witness :
    (stepsFrom c4Backend 5 c4St0).Pairwise List.Disjoint :=
  pagination_batches_pairwise_disjoint c4Backend none c4St0 rfl 5

/-! ### Claim C6 — the advance step against the spec's description -/

/-- Claim C6: on a live iterator past its first call, the advance step
behaves exactly as the spec's ordered description `advanceSpec` says:
it raises `StopIteration` precisely when the spec says the sequence
ends (500, missing token, stagnant token, stagnant raw list, or empty
deduplicated batch — checked in that order), it raises an error
precisely on the remaining statuses, and on success it returns the
deduplicated batch after updating the token, the previous-raw-list and
the seen-set union, exactly as the spec states. -/
theorem next_matches_advance_spec (b : SearchBackend) (st : IterState) (prev : List String)
    (hex : st.exhausted = false) (hprev : st.previousLinks = some prev) :
    ((nextBatch b st).1 = .stop ↔
      advanceSpec st (b.nextPageResponse st.pageState st.cookie) = .endOfSequence) ∧
    ((∃ code, (nextBatch b st).1 = .fail code) ↔
      advanceSpec st (b.nextPageResponse st.pageState st.cookie) = .fatal) ∧
    (∀ batchLinks newToken newRaw newSeen,
      advanceSpec st (b.nextPageResponse st.pageState st.cookie) =
          .success batchLinks newToken newRaw newSeen →
      nextBatch b st = (.batch batchLinks,
        { st with links := batchLinks, pageState := newToken, previousLinks := some newRaw,
                  seenLinks := newSeen, batchIndex := st.batchIndex + 1,
                  numNewLinks := st.numNewLinks + batchLinks.length,
                  numIterations := st.numIterations + 1 })) := by
  by_cases h500 : (b.nextPageResponse st.pageState st.cookie).statusCode = 500
  · simp [nextBatch, advanceSpec, hex, hprev, h500]
  · by_cases h200 : (b.nextPageResponse st.pageState st.cookie).statusCode = 200
    · cases hps : (b.nextPageResponse st.pageState st.cookie).pageState with
      | none => simp [nextBatch, advanceSpec, hex, hprev, h500, h200, hps]
      | some newToken =>
        by_cases htok : newToken = st.pageState
        · simp [nextBatch, advanceSpec, hex, hprev, h500, h200, hps, htok]
        · by_cases hraw : prev = (b.nextPageResponse st.pageState st.cookie).links
          · simp [nextBatch, advanceSpec, hex, hprev, h500, h200, hps, htok,
              Ne.symm htok, hraw]
          · by_cases hded : ∀ url ∈ (b.nextPageResponse st.pageState st.cookie).links,
                url ∈ st.seenLinks
            · simp [nextBatch, advanceSpec, deduplicateLinks, hex, hprev, h500, h200, hps,
                htok, Ne.symm htok, hraw, eq_true hded]
            · refine ⟨?_, ?_, ?_⟩
              · simp [nextBatch, advanceSpec, deduplicateLinks, hex, hprev, h500, h200, hps,
                  htok, Ne.symm htok, hraw, eq_false hded]
              · simp [nextBatch, advanceSpec, deduplicateLinks, hex, hprev, h500, h200, hps,
                  htok, Ne.symm htok, hraw, eq_false hded]
              · intro batchLinks newToken' newRaw newSeen hspec
                have hadv : advanceSpec st (b.nextPageResponse st.pageState st.cookie) =
                    .success
                      (deduplicateLinks st.seenLinks
                        (b.nextPageResponse st.pageState st.cookie).links)
                      newToken (b.nextPageResponse st.pageState st.cookie).links
                      (st.seenLinks ++ deduplicateLinks st.seenLinks
                        (b.nextPageResponse st.pageState st.cookie).links) := by
                  simp [advanceSpec, deduplicateLinks, hprev, h500, h200, hps, htok, hraw,
                    eq_false hded]
                rw [hadv] at hspec
                simp only [AdvanceSpecOutcome.success.injEq] at hspec
                obtain ⟨hb, ht, hr, hs⟩ := hspec
                subst hb; subst ht; subst hr; subst hs
                simp [nextBatch, deduplicateLinks, hex, hprev, h500, h200, hps,
                  Ne.symm htok, hraw, eq_false hded]
    · simp [nextBatch, advanceSpec, hex, hprev, h500, h200]

/-- Witness for `next_matches_advance_spec` on the concrete state
`c6St` over `c6Backend`. -/
theorem next_matches_advance_spec_witness :
    (nextBatch c6Backend c6St).1 = .stop ↔
      advanceSpec c6St (c6Backend.nextPageResponse c6St.pageState c6St.cookie) =
        .endOfSequence :=
  (next_matches_advance_spec c6Backend c6St ["p"] rfl rfl).1

/-! ### Claim C7 — behaviour on a missing filename header -/

/-- Claim C7, counterexample.  A 200 avis response without a
`Content-Disposition` header is not fatal: `fetch_avis_file` returns
`(None, None)` — raising nothing and writing nothing — exactly like
reglement's soft miss. -/
theorem avis_missing_header_not_fatal :
    fetchAvisFile "1" "/files/a" zeroWriter c7Backend = Except.ok ((none, none), []) := rfl

/-- Claim C7, amended: a response with no filename-disposition header is
a soft miss (`filename=null`, nothing written) for reglement AND for
avis; only `fetch_complement_file` treats the absent header as fatal
(it reads the header with default `''` and raises when the pattern
fails). -/
theorem missing_disposition_asymmetry (postingId link : String) (writerSize : WriterSize)
    (backend : String → FileResponse)
    (hlink : link ≠ "")
    (hstatus : (backend (urlHost ++ link)).statusCode = 200)
    (hcd : (backend (urlHost ++ link)).contentDisposition = none) :
    fetchReglementFile postingId link writerSize backend = .ok ((none, none), []) ∧
    fetchAvisFile postingId link writerSize backend = .ok ((none, none), []) ∧
    fetchComplementFile postingId link writerSize backend = .error .noFilenameMatch := by
  have hm : matchQuotedLoose "" = none := rfl
  refine ⟨?_, ?_, ?_⟩
  · simp [fetchReglementFile, hlink, hcd]
  · simp [fetchAvisFile, hlink, hstatus, hcd]
  · simp [fetchComplementFile, hlink, hstatus, hcd, hm]

/-- Witness for `missing_disposition_asymmetry` on a concrete
headerless backend. -/
theorem missing_disposition_asymmetry_witness :
    fetchReglementFile "1" "/l" zeroWriter c7Backend = .ok ((none, none), []) ∧
    fetchAvisFile "1" "/l" zeroWriter c7Backend = .ok ((none, none), []) ∧
    fetchComplementFile "1" "/l" zeroWriter c7Backend = .error .noFilenameMatch :=
  missing_disposition_asymmetry "1" "/l" zeroWriter c7Backend (by decide) rfl rfl

/-! ### Claim C9 — DCE step 2 without a token -/

/-- Claim C9: when step 1 of the DCE flow is healthy (status 200, token
present, nonempty cookie) but the step-2 response body carries no
PRADO_PAGESTATE token, `fetch_dce_file` raises the protocol-shape error
for step 2 and performs no write — for every writer, the result is the
bare error, and the write log of every non-error path is unreachable. -/
theorem dce_step2_missing_token_fails (b : DceBackend) (postingId orgAcronym : String)
    (writerSize : WriterSize) (t c : String)
    (h1 : b.confirmationPage.statusCode = 200)
    (h2 : b.confirmationPage.pageState = some t)
    (h3 : b.confirmationPage.setCookie = some c)
    (h4 : c ≠ "")
    (h5 : (b.validateResponse t c).statusCode = 200)
    (h6 : (b.validateResponse t c).pageState = none) :
    fetchDceFile postingId orgAcronym writerSize b = .error (.missingPageState 2) := by
  simp [fetchDceFile, h1, h2, h3, h4, h5, h6]

/-- Witness for `dce_step2_missing_token_fails` over `c9Backend`. -/
theorem dce_step2_missing_token_fails_witness :
    fetchDceFile "1" "org" zeroWriter c9Backend = .error (.missingPageState 2) :=
  dce_step2_missing_token_fails c9Backend "1" "org" zeroWriter "t1" "ck"
    rfl rfl rfl (by decide) rfl rfl

/-! ### Claim C10 — the posting page parser is all-or-nothing -/

/-- A successful `extract_field` pins down the section's label and
value. -/
theorem extractField_ok {infoSections : List InfoSection} {idx : Nat} {expected v : String}
    (h : extractField infoSections idx expected = .ok v) :
    labelAt infoSections idx = some expected ∧ valueAt infoSections idx = some v := by
  unfold extractField at h
  split at h
  · exact Except.noConfusion h
  · rename_i sec hsec
    split at h
    · exact Except.noConfusion h
    · rename_i foundLabel hlab
      split at h
      · exact Except.noConfusion h
      · rename_i hne
        split at h
        · exact Except.noConfusion h
        · rename_i v' hval
          simp only [Except.ok.injEq] at h
          subst h
          have hfl : foundLabel = expected := not_not.mp hne
          subst hfl
          rw [List.get?_eq_getElem?] at hsec
          exact ⟨by simp [labelAt, hsec, hlab], by simp [valueAt, hsec, hval]⟩

/-- Claim C10: `parse_posting_info` returns a record only when all four
fixed-position labels match their expected strings, the record's four
fields are exactly the four section values (never partially filled),
and whenever the labels do not all match the parse fails with a
structural error. -/
theorem parse_posting_info_all_or_nothing (infoSections : List InfoSection) :
    (∀ info, parsePostingInfo infoSections = .ok info →
        labelsAllMatch infoSections = true ∧
        valueAt infoSections 0 = some info.reference ∧
        valueAt infoSections 1 = some info.title ∧
        valueAt infoSections 2 = some info.description ∧
        valueAt infoSections 3 = some info.organization) ∧
    (labelsAllMatch infoSections = false → ∃ e, parsePostingInfo infoSections = .error e) := by
  have hmain : ∀ info, parsePostingInfo infoSections = .ok info →
      labelsAllMatch infoSections = true ∧
      valueAt infoSections 0 = some info.reference ∧
      valueAt infoSections 1 = some info.title ∧
      valueAt infoSections 2 = some info.description ∧
      valueAt infoSections 3 = some info.organization := by
    intro info hinfo
    unfold parsePostingInfo at hinfo
    split at hinfo
    · exact Except.noConfusion hinfo
    · rename_i reference h0
      split at hinfo
      · exact Except.noConfusion hinfo
      · rename_i title h1
        split at hinfo
        · exact Except.noConfusion hinfo
        · rename_i description h2
          split at hinfo
          · exact Except.noConfusion hinfo
          · rename_i organization h3
            simp only [Except.ok.injEq] at hinfo
            subst hinfo
            obtain ⟨hl0, hv0⟩ := extractField_ok h0
            obtain ⟨hl1, hv1⟩ := extractField_ok h1
            obtain ⟨hl2, hv2⟩ := extractField_ok h2
            obtain ⟨hl3, hv3⟩ := extractField_ok h3
            refine ⟨?_, hv0, hv1, hv2, hv3⟩
            simp [labelsAllMatch, hl0, hl1, hl2, hl3]
  refine ⟨hmain, ?_⟩
  intro hfalse
  cases hp : parsePostingInfo infoSections with
  | error e => exact ⟨e, rfl⟩
  | ok info =>
    obtain ⟨htrue, -⟩ := hmain info hp
    rw [htrue] at hfalse
    exact Bool.noConfusion hfalse

/-- Witness for `parse_posting_info_all_or_nothing` on a page whose four
labels all match. -/
theorem parse_posting_info_all_or_nothing_witness :
    labelsAllMatch goodSections = true ∧
    valueAt goodSections 0 = some "REF" ∧
    valueAt goodSections 1 = some "TITLE" ∧
    valueAt goodSections 2 = some "DESC" ∧
    valueAt goodSections 3 = some "ORG" :=
  (parse_posting_info_all_or_nothing goodSections).1 ⟨"REF", "TITLE", "DESC", "ORG"⟩ rfl

/-! ### Claim C8 — archive-name round-trip -/

/-- Lists coincide with their string image. -/
theorem toList_asString (l : List Char) : l.asString.toList = l := rfl

/-- Strings coincide with their list image. -/
theorem asString_toList (s : String) : s.toList.asString = s := rfl

/-- `takeWhile` swallows a satisfying prefix up to the first failing
element. -/
theorem takeWhile_all_append {α : Type} (p : α → Bool) (xs : List α) (y : α) (ys : List α)
    (hxs : ∀ x ∈ xs, p x = true) (hy : p y = false) :
    (xs ++ y :: ys).takeWhile p = xs := by
  induction xs with
  | nil => simp [List.takeWhile_cons, hy]
  | cons a as ih =>
    have ha : p a = true := hxs a (List.mem_cons_self a as)
    simp [List.takeWhile_cons, ha,
      ih (fun x hx => hxs x (List.mem_cons_of_mem a hx))]

/-- `dropWhile` keeps a list whose head already fails the predicate. -/
theorem dropWhile_all_false {α : Type} (p : α → Bool) (xs : List α)
    (hxs : ∀ x ∈ xs, p x = false) : xs.dropWhile p = xs := by
  cases xs with
  | nil => rfl
  | cons a as => simp [List.dropWhile_cons, hxs a (List.mem_cons_self a as)]

/-- `takeWhile` keeps a list all of whose elements satisfy the
predicate. -/
theorem takeWhile_all_true {α : Type} (p : α → Bool) (xs : List α)
    (hxs : ∀ x ∈ xs, p x = true) : xs.takeWhile p = xs := by
  induction xs with
  | nil => rfl
  | cons a as ih =>
    simp [List.takeWhile_cons, hxs a (List.mem_cons_self a as),
      ih (fun x hx => hxs x (List.mem_cons_of_mem a hx))]

/-- A name without dots or slashes is its own stem. -/
theorem posixStem_no_dot_no_slash {cs : List Char} (hdot : '.' ∉ cs) (hslash : '/' ∉ cs) :
    posixStem cs = cs := by
  have hstrip : stripTrailingSlashes cs = cs := by
    unfold stripTrailingSlashes
    rw [dropWhile_all_false _ _ ?_, List.reverse_reverse]
    intro x hx
    rw [List.mem_reverse] at hx
    exact decide_eq_false (fun heq => hslash (heq ▸ hx))
  have hname : posixName cs = cs := by
    unfold posixName
    rw [hstrip, takeWhile_all_true _ _ ?_, List.reverse_reverse]
    intro x hx
    rw [List.mem_reverse] at hx
    exact decide_eq_true (fun heq => hslash (heq ▸ hx))
  have htail : (cs.reverse.takeWhile (· ≠ '.')) = cs.reverse := by
    refine takeWhile_all_true _ _ ?_
    intro x hx
    rw [List.mem_reverse] at hx
    exact decide_eq_true (fun heq => hdot (heq ▸ hx))
  unfold posixStem lastDotIdx
  rw [hname]
  dsimp only
  rw [htail, List.length_reverse, if_pos rfl]

/-- Splitting off the longest dot-free suffix finds the final
separator. -/
theorem splitAtLastDot_concat (stemL kindL : List Char) (hk : '.' ∉ kindL) :
    splitAtLastDot (stemL ++ '.' :: kindL) = some (stemL, kindL) := by
  have hrev : (stemL ++ '.' :: kindL).reverse = kindL.reverse ++ '.' :: stemL.reverse := by
    simp
  have htake : (kindL.reverse ++ '.' :: stemL.reverse).takeWhile (· ≠ '.') = kindL.reverse := by
    refine takeWhile_all_append _ _ _ _ ?_ (by simp)
    intro x hx
    rw [List.mem_reverse] at hx
    exact decide_eq_true (fun heq => hk (heq ▸ hx))
  have hdrop : (kindL.reverse ++ '.' :: stemL.reverse).drop kindL.reverse.length =
      '.' :: stemL.reverse := List.drop_left _ _
  unfold splitAtLastDot
  rw [hrev]
  dsimp only
  rw [htake, hdrop]
  simp

/-- The hand-compiled regex parse inverts the concatenated archive-name
shape: a nonempty digit run, a dot, the stem, a dot, a dot-free kind,
and the `.zip` suffix. -/
theorem parseArchiveNameL_concat (dig stemL kindL : List Char)
    (hd : dig ≠ []) (hdig : ∀ c ∈ dig, c.isDigit = true) (hk : '.' ∉ kindL) :
    parseArchiveNameL (dig ++ '.' :: (stemL ++ '.' :: (kindL ++ ['.', 'z', 'i', 'p']))) =
      some (digitsToNat dig, stemL, kindL) := by
  have htake : (dig ++ '.' :: (stemL ++ '.' :: (kindL ++ ['.', 'z', 'i', 'p']))).takeWhile
      Char.isDigit = dig :=
    takeWhile_all_append Char.isDigit dig '.' _ hdig (by decide)
  unfold parseArchiveNameL
  rw [htake, if_neg hd, List.drop_left]
  simp [splitAtLastDot_concat stemL kindL hk]

/-- Specification of `Nat.toDigitsCore` at base 10 with enough fuel. -/
theorem toDigitsCore_eq_natDigits : ∀ (fuel n : Nat) (acc : List Char), n < fuel →
    Nat.toDigitsCore 10 fuel n acc = natDigits n ++ acc := by
  intro fuel
  induction fuel with
  | zero => intro n acc h; exact absurd h (Nat.not_lt_zero n)
  | succ f ih =>
    intro n acc h
    rw [Nat.toDigitsCore]
    by_cases h10 : n / 10 = 0
    · have hn : n < 10 := by omega
      rw [if_pos h10, natDigits, dif_pos hn, Nat.mod_eq_of_lt hn]
      simp
    · have hge : 10 ≤ n := by
        by_contra hlt
        push_neg at hlt
        exact h10 (Nat.div_eq_of_lt hlt)
      have hdiv_lt : n / 10 < n := Nat.div_lt_self (by omega) (by omega)
      rw [if_neg h10, ih (n / 10) (Nat.digitChar (n % 10) :: acc) (by omega)]
      conv_rhs => rw [natDigits]
      rw [dif_neg (by omega : ¬n < 10)]
      simp

/-- `Nat.repr` produces exactly the reference digit characters. -/
theorem toList_repr (n : Nat) : (Nat.repr n).toList = natDigits n := by
  show (Nat.toDigits 10 n).asString.toList = natDigits n
  rw [Nat.toDigits, toDigitsCore_eq_natDigits (n + 1) n [] (Nat.lt_succ_self n),
    List.append_nil, toList_asString]

/-- Decimal digit characters are digits. -/
theorem digitChar_isDigit {d : Nat} (h : d < 10) : (Nat.digitChar d).isDigit = true := by
  interval_cases d <;> decide

/-- Value of a decimal digit character. -/
theorem digitChar_toNat {d : Nat} (h : d < 10) :
    (Nat.digitChar d).toNat - '0'.toNat = d := by
  interval_cases d <;> decide

/-- Every character of the reference digit list is a digit. -/
theorem natDigits_all_digits (n : Nat) : ∀ c ∈ natDigits n, c.isDigit = true := by
  induction n using Nat.strong_induction_on with
  | _ n ih =>
    rw [natDigits]
    by_cases h : n < 10
    · rw [dif_pos h]
      intro c hc
      simp only [List.mem_singleton] at hc
      subst hc
      exact digitChar_isDigit h
    · rw [dif_neg h]
      intro c hc
      rcases List.mem_append.mp hc with hc1 | hc2
      · exact ih (n / 10) (Nat.div_lt_self (by omega) (by omega)) c hc1
      · simp only [List.mem_singleton] at hc2
        subst hc2
        exact digitChar_isDigit (Nat.mod_lt n (by omega))

/-- The reference digit list is never empty. -/
theorem natDigits_ne_nil (n : Nat) : natDigits n ≠ [] := by
  rw [natDigits]
  by_cases h : n < 10
  · rw [dif_pos h]; simp
  · rw [dif_neg h]; simp

/-- Python `int()` inverts the decimal digits. -/
theorem digitsToNat_natDigits (n : Nat) : digitsToNat (natDigits n) = n := by
  induction n using Nat.strong_induction_on with
  | _ n ih =>
    rw [natDigits]
    by_cases h : n < 10
    · rw [dif_pos h]
      show 0 * 10 + ((Nat.digitChar n).toNat - '0'.toNat) = n
      rw [digitChar_toNat h]
      omega
    · rw [dif_neg h]
      have hsplit : digitsToNat (natDigits (n / 10) ++ [Nat.digitChar (n % 10)]) =
          digitsToNat (natDigits (n / 10)) * 10 +
            ((Nat.digitChar (n % 10)).toNat - '0'.toNat) := by
        simp [digitsToNat, List.foldl_append]
      rw [hsplit, ih (n / 10) (Nat.div_lt_self (by omega) (by omega)),
        digitChar_toNat (Nat.mod_lt n (by omega))]
      omega

/-- Claim C8, counterexample.  A fileStem containing a `'/'` but no
`'.'` breaks the round-trip: `Path('a/b').stem` is `'b'`, so decoding
`local_archive_name(str(7), 'a/b', 'avis')` yields `(7, 'b', 'avis')`,
not the original triple. -/
theorem archive_name_slash_breaks_roundtrip :
    parseArchiveName (localArchiveName (Nat.repr 7) "a/b" "avis") = some (7, "b", "avis") ∧
    some ((7 : Nat), "b", "avis") ≠ some ((7 : Nat), "a/b", "avis") := by
  exact ⟨by decide, by decide⟩

/-- Claim C8, amended: for every postingId ≥ 0 and every fileStem and
kind containing no `'.'`, where additionally fileStem contains no `'/'`
(`Path(...).stem` drops everything up to the last slash),
`parse_archive_name (local_archive_name (str postingId) fileStem kind)`
returns exactly `(postingId, fileStem, kind)`. -/
theorem archive_name_roundtrip (postingId : Nat) (fileStem fileType : String)
    (h1 : '.' ∉ fileStem.toList) (h2 : '/' ∉ fileStem.toList)
    (h3 : '.' ∉ fileType.toList) :
    parseArchiveName (localArchiveName (Nat.repr postingId) fileStem fileType) =
      some (postingId, fileStem, fileType) := by
  have happ : ∀ a b : String, (a ++ b).toList = a.toList ++ b.toList := fun a b =>
    String.data_append a b
  have hstem : posixStem fileStem.toList = fileStem.toList :=
    posixStem_no_dot_no_slash h1 h2
  have hlist : (localArchiveName (Nat.repr postingId) fileStem fileType).toList
      = natDigits postingId ++ '.' ::
        (fileStem.toList ++ '.' :: (fileType.toList ++ ['.', 'z', 'i', 'p'])) := by
    unfold localArchiveName
    rw [hstem]
    simp only [happ, toList_asString, toList_repr]
    simp
  unfold parseArchiveName
  rw [hlist, parseArchiveNameL_concat (natDigits postingId) fileStem.toList fileType.toList
    (natDigits_ne_nil postingId) (natDigits_all_digits postingId) h3]
  dsimp only
  rw [digitsToNat_natDigits, asString_toList, asString_toList]

/-- Witness for `archive_name_roundtrip` on a concrete triple. -/
theorem archive_name_roundtrip_witness :
    parseArchiveName (localArchiveName (Nat.repr 42) "doc" "avis") =
      some (42, "doc", "avis") :=
  archive_name_roundtrip 42 "doc" "avis" (by decide) (by decide) (by decide)

end OpenPlace
